import Mathlib

/-!
Shallow embedding of the annotation editor of `src/frontend/src/App.js`
(AI correction app "Kotonoha"): the annotation object model, the
undo/redo history manager, the move/resize/erase/nudge/paste operations
and the auto-layout mapper, together with proofs of the specification
claims about them.

Numbers are modelled as rationals.  A JavaScript numeric field can also
be `undefined` (absent from the object) or `NaN`; both matter to the
source (e.g. `stroke.offsetX || 0`, `Math.max(0, b.y - step)` on an
object without a `y` field), so numeric object fields use `JsNum`.
-/

namespace Kotonoha

/-- A JavaScript number-valued field: a finite number, `NaN`, or
`undefined` (the field is absent from the object).  Arithmetic on
`undefined` or `NaN` yields `NaN`, as in JavaScript. -/
inductive JsNum where
  | undef
  | nan
  | num (q : ℚ)
deriving DecidableEq

namespace JsNum

/-- JS `a + b` on number-or-undefined values. -/
def add : JsNum → JsNum → JsNum
  | num a, num b => num (a + b)
  | _, _ => nan

/-- JS `a - b`. -/
def sub : JsNum → JsNum → JsNum
  | num a, num b => num (a - b)
  | _, _ => nan

/-- JS `a * b`. -/
def mul : JsNum → JsNum → JsNum
  | num a, num b => num (a * b)
  | _, _ => nan

/-- JS `a / b`.  Division by zero gives a non-finite value (`Infinity`),
which we conflate with `nan`; every division in the modelled code has a
divisor that has been forced away from `0` first. -/
def div : JsNum → JsNum → JsNum
  | num a, num b => if b = 0 then nan else num (a / b)
  | _, _ => nan

/-- JS `Math.max(c, v)` for a constant first argument: `Math.max` with a
`NaN`/`undefined` argument returns `NaN`. -/
def maxC (c : ℚ) : JsNum → JsNum
  | num q => num (max c q)
  | _ => nan

/-- JS `Math.max(a, b)` of two field values. -/
def max2 : JsNum → JsNum → JsNum
  | num a, num b => num (max a b)
  | _, _ => nan

/-- JS `v || d` for a numeric default `d`: `undefined`, `NaN` and `0`
are falsy. -/
def orQ : JsNum → ℚ → ℚ
  | num q, d => if q = 0 then d else q
  | _, d => d

/-- JS `v ?? 0`: only `undefined` (nullish) is replaced; `NaN` stays. -/
def nsz : JsNum → JsNum
  | undef => num 0
  | v => v

/-- JS `typeof v === 'number'` (`NaN` is also of type number, but the
one modelled use, App.js 1865, restores the start value and is
observationally the same under either reading for finite values). -/
def isNum : JsNum → Bool
  | num _ => true
  | _ => false

/-- JS `Math.round` on a field value (`Math.round(NaN)` is `NaN`):
round half toward `+∞` (`Rat.floor` is the integer floor). -/
def round : JsNum → JsNum
  | num q => num ((Rat.floor (q + 1/2) : ℤ) : ℚ)
  | _ => nan

end JsNum

/-- JS `Math.round` on a plain number: round half toward `+∞`. -/
def jround (q : ℚ) : ℚ := ((Rat.floor (q + 1/2) : ℤ) : ℚ)

/-- JS `parseInt(·, 10)` applied to a number: truncation toward zero. -/
def jsTrunc (q : ℚ) : ℤ := if q < 0 then -(Rat.floor (-q)) else Rat.floor q

/-- One sample point of a freehand stroke (page-local pixels). -/
structure Pt where
  x : ℚ
  y : ℚ
deriving DecidableEq

/-- The value of the JS `type` field of an annotation object.  Plain
comment text boxes created by `addBox` carry no `type` field at all,
modelled by `undef`; glyph boxes are created with `type: 'text'`. -/
inductive BKind where
  | undef
  | text
  | score
  | image
  | line
  | arrow
  | target
  | draw
deriving DecidableEq

/-- An annotation object (one element of the `boxes` collection in
`App.js`).  JS objects of the different kinds carry different fields;
fields a kind does not set default to `undefined` / `""` / `[]`.
`scorePts` models the JS `points` field of a `score` marker (an
integer), distinct from the `points` sample list of a `draw` stroke. -/
structure Box where
  id : ℕ
  btype : BKind := .undef
  page : ℤ := 0
  x : JsNum := .undef
  y : JsNum := .undef
  w : JsNum := .undef
  h : JsNum := .undef
  ex : JsNum := .undef
  ey : JsNum := .undef
  fontSize : JsNum := .undef
  fontWeight : String := ""
  text : String := ""
  points : List Pt := []
  scorePts : JsNum := .undef
  strokeWidth : JsNum := .undef
  offsetX : JsNum := .undef
  offsetY : JsNum := .undef
  fixedHeight : Bool := false
  isEditing : Bool := false
  group : Option String := none
  src : String := ""
deriving DecidableEq

/-- The editor's history state: the live object collection plus the
undo and redo stacks (`historyRef`, `redoRef`), each a stack of full
snapshots with its top at the head.  Snapshots in the source are deep
`JSON` copies; on pure values a deep copy is the value itself. -/
structure EditorState where
  boxes : List Box
  history : List (List Box)
  redo : List (List Box)
deriving DecidableEq

/-- `pushHistory` (App.js 1948-1950): push a deep copy of the current
collection onto the undo stack and clear the redo stack. -/
def pushHistory (s : EditorState) : EditorState :=
  { s with history := s.boxes :: s.history, redo := [] }

/-- The undo action (App.js 1976-1977 and the toolbar button, 2844):
pop the undo stack; if a snapshot was there, push the current
collection onto redo and restore the popped snapshot.  Popping an
empty stack yields `undefined` and nothing happens. -/
def undoStep (s : EditorState) : EditorState :=
  match s.history with
  | [] => s
  | prev :: rest => { boxes := prev, history := rest, redo := s.boxes :: s.redo }

/-- The redo action (App.js 1973-1974 and the toolbar button, 2845):
mirror image of `undoStep`. -/
def redoStep (s : EditorState) : EditorState :=
  match s.redo with
  | [] => s
  | next :: rest => { boxes := next, redo := rest, history := s.boxes :: s.history }

/-- `viewportPos(defX, defY)` (App.js 1305-1313) with the page view's
current `scrollLeft`/`scrollTop` given as `sl`/`st`. -/
def viewportPos (sl st defX defY : ℚ) : ℚ × ℚ :=
  (max 0 (sl + defX), max 0 (st + defY))

/-- `sanitizeReviewText` (App.js 1175-1185): strip markdown blockquote
markers at line starts, remove the review label emojis, trim trailing
whitespace per line, and trim the whole string.  The per-line regexes
(`m` flag) are modelled line by line. -/
def stripBlockquote (l : String) : String :=
  let ws := l.takeWhile Char.isWhitespace
  let rest := l.drop ws.length
  if rest.take 1 = ">" then
    let afterGt := rest.drop 1
    if afterGt.take 1 ≠ "" ∧ (afterGt.take 1).all Char.isWhitespace then
      afterGt.drop 1
    else afterGt
  else l

/-- Remove the trailing whitespace of one line (JS `/\s+$/gm`). -/
def trimLineEnd (l : String) : String :=
  String.mk (l.data.reverse.dropWhile Char.isWhitespace).reverse

/-- `sanitizeReviewText` (App.js 1175-1185). -/
def sanitizeReviewText (t : String) : String :=
  if t = "" then "" else
  let s1 := String.intercalate "\n" ((t.splitOn "\n").map stripBlockquote)
  let s2 := String.mk (s1.data.filter fun c => c ≠ '✅' ∧ c ≠ '❌' ∧ c ≠ '💡')
  (String.intercalate "\n" ((s2.splitOn "\n").map trimLineEnd)).trim

/-- The options object accepted by `addBox` / `addScoreMarker`
(App.js 1208, 1232).  `none` models an absent field. -/
structure AddOpts where
  select : Bool := true
  edit : Bool := false
  fontSize : Option ℚ := none
  page : Option ℤ := none
  x : Option ℚ := none
  y : Option ℚ := none
  w : Option ℚ := none
  h : Option ℚ := none
  fixedHeight : Bool := false
deriving DecidableEq

/-- The object built by `addBox` (App.js 1208-1218).  `current` is the
current page, `sl`/`st` the scroll offsets feeding `viewportPos`, and
`id` stands for the generated unique id string.  `opts.fontSize` is
used only when truthy (a number `0` falls back to `14`); the
positional options are used when they are numbers (`typeof` check). -/
def mkAddBox (id : ℕ) (current : ℤ) (sl st : ℚ) (txt : String) (o : AddOpts) : Box :=
  let vp := viewportPos sl st 40 40
  let initFont := match o.fontSize with
    | some f => if f = 0 then 14 else f
    | none => 14
  { id := id, btype := .undef,
    page := o.page.getD current,
    x := .num (o.x.getD vp.1), y := .num (o.y.getD vp.2),
    w := .num (o.w.getD 240), h := .num (o.h.getD 100),
    fontSize := .num initFont, fontWeight := "bold",
    text := sanitizeReviewText txt,
    isEditing := o.edit, fixedHeight := o.fixedHeight }

/-- The object built by `addScoreMarker` (App.js 1232-1241); its JS
`points` field is `parseInt(points || 1, 10)`. -/
def mkScoreMarker (id : ℕ) (current : ℤ) (sl st : ℚ) (pts : ℚ) (o : AddOpts) : Box :=
  let vp := viewportPos sl st 60 60
  { id := id, btype := .score,
    page := o.page.getD current,
    x := .num (o.x.getD vp.1), y := .num (o.y.getD vp.2),
    w := .num 60, h := .num 30,
    fontSize := .num 18, fontWeight := "bold",
    scorePts := .num ((jsTrunc (if pts = 0 then 1 else pts) : ℤ) : ℚ) }

/-- Replace the first element satisfying `p` (the `findIndex` +
index-assignment pattern used by the move and resize handlers). -/
def updateFirst (p : α → Bool) (f : α → α) : List α → List α
  | [] => []
  | a :: as => if p a then f a :: as else a :: updateFirst p f as

/-- One selected object updated by the move gesture's pointer-move
handler (App.js 1700-1722): `st` is the object's snapshot taken at
gesture start (`starts[bid]`), `nb` the object in the current
collection.  `draw` strokes are skipped (`continue`); arrows move all
four endpoint coordinates (with `?? 0` on the start values); other
kinds move `x`/`y`, clamped at `0`. -/
def moveUpd (st : Box) (dx dy : ℚ) (nb : Box) : Box :=
  match nb.btype with
  | .draw => nb
  | .arrow =>
    { nb with x := (st.x.nsz.add (.num dx)).maxC 0,
              y := (st.y.nsz.add (.num dy)).maxC 0,
              ex := (st.ex.nsz.add (.num dx)).maxC 0,
              ey := (st.ey.nsz.add (.num dy)).maxC 0 }
  | _ =>
    { nb with x := (st.x.add (.num dx)).maxC 0,
              y := (st.y.add (.num dy)).maxC 0 }

/-- The collection mutation of a whole move gesture with total pointer
delta `(dx, dy)` in single-page view (App.js 1693-1723): start
positions are captured from the pre-gesture collection; for each
selected id the first matching object is updated. -/
def moveMutate (sel : List ℕ) (dx dy : ℚ) (bs : List Box) : List Box :=
  sel.foldl (fun arr bid =>
    match bs.find? (fun b0 => b0.id = bid) with
    | none => arr
    | some st => updateFirst (fun b => b.id = bid) (moveUpd st dx dy) arr) bs

/-- A resize handle: the four corners and the left/right edges. -/
inductive Corner where
  | tl
  | tr
  | bl
  | br
  | l
  | r
deriving DecidableEq

/-- A rendered page surface rectangle (`getBoundingClientRect` of the
page image), used by the arrow branch of the resize handler. -/
structure SurfRect where
  left : ℚ
  top : ℚ
  width : ℚ
  height : ℚ
deriving DecidableEq

/-- One step of `onResizeDown`'s pointer-move handler
(App.js 1806-1895): `startBox` is the gesture-start snapshot of the
object, `cur` its value in the current collection, `(dx, dy)` the
pointer delta, and `r`, `(ptx, pty)` the page-image rectangle and
pointer position used only by the arrow branch. -/
def resizeStep (startBox cur : Box) (c : Corner) (dx dy : ℚ)
    (r : SurfRect) (ptx pty : ℚ) : Box :=
  if startBox.btype = .arrow then
    -- drag one endpoint, clamped inside the page image
    let cx := max 0 (min (ptx - r.left) r.width)
    let cy := max 0 (min (pty - r.top) r.height)
    if c = .tl ∨ c = .l then { cur with x := .num cx, y := .num cy }
    else if c = .br ∨ c = .r then { cur with ex := .num cx, ey := .num cy }
    else cur
  else if startBox.btype = .line then
    -- straight line: keep thickness, resize length horizontally
    let thickness := max 1 (startBox.h.orQ 3)
    let onLeft := c = .l ∨ c = .tl ∨ c = .bl
    let onRight := c = .r ∨ c = .tr ∨ c = .br
    let nw := if onLeft then startBox.w.sub (.num dx)
              else if onRight then startBox.w.add (.num dx)
              else startBox.w
    let nx := if onLeft then startBox.x.add (.num dx) else startBox.x
    { cur with x := nx.maxC 0, y := startBox.y.maxC 0,
               w := nw.maxC 10, h := .num thickness }
  else
    let nx := if c = .bl ∨ c = .tl ∨ c = .l then startBox.x.add (.num dx) else startBox.x
    let ny := if c = .tr ∨ c = .tl then startBox.y.add (.num dy) else startBox.y
    let nw := if c = .br ∨ c = .tr ∨ c = .r then startBox.w.add (.num dx)
              else startBox.w.sub (.num dx)
    let nh := if c = .br ∨ c = .bl then startBox.h.add (.num dy)
              else if c = .tr ∨ c = .tl then startBox.h.sub (.num dy)
              else startBox.h
    let isTextBox := startBox.btype = .undef ∨ startBox.btype = .text
    if isTextBox ∧ (c = .l ∨ c = .r) then
      -- text boxes: vertical edge resize changes width only
      { cur with x := nx.maxC 0, w := nw.maxC 80,
                 y := startBox.y, h := startBox.h,
                 fontSize := if startBox.fontSize.isNum then startBox.fontSize
                             else cur.fontSize }
    else
      let qx := nx.maxC 0
      let qy := ny.maxC 0
      let nw1 := nw.maxC 80
      let nh1 := nh.maxC 40
      if c = .tl ∨ c = .tr ∨ c = .bl ∨ c = .br then
        let startW := startBox.w.maxC 1
        let startH := startBox.h.maxC 1
        let sx := nw1.div startW
        let sy := nh1.div startH
        let s := sx.max2 sy
        let newW := (startW.mul s).maxC 80
        let newH := (startH.mul s).maxC 40
        let qx2 := if c = .tl ∨ c = .bl
          then (startBox.x.add (startW.sub newW)).maxC 0 else qx
        let qy2 := if c = .tl ∨ c = .tr
          then (startBox.y.add (startH.sub newH)).maxC 0 else qy
        let fs := if startBox.btype ≠ .image
          then ((JsNum.num (startBox.fontSize.orQ 16)).mul s).round.maxC 8
          else cur.fontSize
        { cur with x := qx2, y := qy2, w := newW, h := newH, fontSize := fs }
      else
        { cur with x := qx, y := qy, w := nw1, h := nh1 }

/-- The collection mutation of a whole resize gesture on object `id`
(App.js 1802-1895): the start box is looked up in the pre-gesture
collection and the first object with that id is rewritten. -/
def resizeMutate (id : ℕ) (c : Corner) (dx dy : ℚ) (r : SurfRect)
    (ptx pty : ℚ) (bs : List Box) : List Box :=
  match bs.find? (fun b0 => b0.id = id) with
  | none => bs
  | some sb => updateFirst (fun b => b.id = id) (fun b => resizeStep sb b c dx dy r ptx pty) bs

/-- `removeSelected` mutation (App.js 1929): drop every selected id. -/
def deleteMutate (sel : List ℕ) (bs : List Box) : List Box :=
  bs.filter (fun b => ¬ sel.contains b.id)

/-- A single history-pushing editor operation: place (text comment /
score marker / line / arrow / glyph), move gesture, resize gesture, or
delete-selected.  All of them call `pushHistory()` before mutating the
collection (App.js 1209, 1233, 1317, 1330, 1356, 1662, 1796, 1929). -/
inductive EditOp where
  | place (id : ℕ) (current : ℤ) (sl st : ℚ) (txt : String) (o : AddOpts)
  | placeScore (id : ℕ) (current : ℤ) (sl st : ℚ) (pts : ℚ) (o : AddOpts)
  | move (sel : List ℕ) (dx dy : ℚ)
  | resize (id : ℕ) (c : Corner) (dx dy : ℚ) (r : SurfRect) (ptx pty : ℚ)
  | del (sel : List ℕ)

/-- The collection mutation of an `EditOp`. -/
def EditOp.mutate : EditOp → List Box → List Box
  | .place id current sl st txt o, bs => bs ++ [mkAddBox id current sl st txt o]
  | .placeScore id current sl st pts o, bs => bs ++ [mkScoreMarker id current sl st pts o]
  | .move sel dx dy, bs => moveMutate sel dx dy bs
  | .resize id c dx dy r ptx pty, bs => resizeMutate id c dx dy r ptx pty bs
  | .del sel, bs => deleteMutate sel bs

/-- Apply an editor operation: push the pre-mutation snapshot, then
mutate the collection. -/
def applyEdit (e : EditOp) (s : EditorState) : EditorState :=
  let s' := pushHistory s
  { s' with boxes := e.mutate s.boxes }

/-- One pasted clone (App.js 1995-2005): fresh id, everything else a
deep copy offset by `20` — `draw` strokes in their translation fields,
arrows in all four endpoints, other kinds in `x`/`y` (with `|| 0`). -/
def cloneBox (off : ℚ) (newId : ℕ) (b : Box) : Box :=
  let nb := { b with id := newId }
  match b.btype with
  | .draw => { nb with offsetX := .num (b.offsetX.orQ 0 + off),
                       offsetY := .num (b.offsetY.orQ 0 + off) }
  | .arrow => { nb with x := b.x.add (.num off), y := b.y.add (.num off),
                        ex := b.ex.add (.num off), ey := b.ey.add (.num off) }
  | _ => { nb with x := .num (b.x.orQ 0 + off), y := .num (b.y.orQ 0 + off) }

/-- The paste shortcut (App.js 1990-2012).  The `onKey` handler
returns early when nothing is selected (App.js 1961) and when the
clipboard is empty; otherwise the clones are appended.  No
`pushHistory()` call appears in this branch.  `ids` supplies the
generated fresh ids. -/
def pasteKey (sel : List ℕ) (clip : List Box) (ids : List ℕ) (s : EditorState) : EditorState :=
  if sel.isEmpty then s
  else if clip.isEmpty then s
  else { s with boxes := s.boxes ++ List.zipWith (cloneBox 20) ids clip }

/-- An arrow-key direction for the nudge shortcut. -/
inductive ArrowKey where
  | up
  | down
  | left
  | right
deriving DecidableEq

/-- One object updated by the arrow-key nudge (App.js 2017-2024).
Up/left clamp at `0`; down/right do not.  On a `draw` stroke, which
has no `x`/`y` fields, the JS arithmetic produces `NaN`. -/
def nudgeOne (k : ArrowKey) (step : ℚ) (b : Box) : Box :=
  match k with
  | .up => { b with y := (b.y.sub (.num step)).maxC 0 }
  | .down => { b with y := b.y.add (.num step) }
  | .left => { b with x := (b.x.sub (.num step)).maxC 0 }
  | .right => { b with x := b.x.add (.num step) }

/-- The arrow-key nudge shortcut (App.js 2014-2024): step `10` with
Shift, else `1`; applied to every selected object; no history push. -/
def nudgeKey (k : ArrowKey) (shift : Bool) (sel : List ℕ) (s : EditorState) : EditorState :=
  if sel.isEmpty then s
  else
    let step : ℚ := if shift then 10 else 1
    { s with boxes := s.boxes.map (fun b =>
        if sel.contains b.id then nudgeOne k step b else b) }

/-- Does the stroke `b` have a sample point within the erase radius
(`12`) of `(px, py)`, after adding the stroke's offset
(App.js 964-971)? -/
def strokeHitsAt (px py : ℚ) (b : Box) : Bool :=
  b.points.any fun p =>
    let dx := p.x + b.offsetX.orQ 0 - px
    let dy := p.y + b.offsetY.orQ 0 - py
    decide (dx * dx + dy * dy ≤ 12 * 12)

/-- `eraseStrokeAt` (App.js 958-980) on one page: `cache` is that
page's stroke cache, `boxes` the master collection.  Returns the new
cache and the new collection.  Strokes with a hit point are removed
whole; if nothing is hit (or the cache is empty) both are returned
unchanged. -/
def eraseStrokeAt (cache : List Box) (boxes : List Box) (px py : ℚ) :
    List Box × List Box :=
  if cache.isEmpty then (cache, boxes)
  else
    let removed := cache.filter (strokeHitsAt px py)
    let kept := cache.filter (fun st => ¬ strokeHitsAt px py st)
    if removed.isEmpty then (cache, boxes)
    else (kept, boxes.filter (fun b =>
      ¬ (b.btype = .draw ∧ removed.any (fun st => st.id = b.id))))

/-- A rendered page surface, as resolved from the DOM for one page
index: the page image's client rectangle `r` (`rLeft`, `rTop`,
`rWidth`, `rHeight`) with its `clientWidth`/`naturalWidth` fallbacks,
and the wrapping element's rectangle origin (`wrLeft`, `wrTop`). -/
structure Surface where
  rLeft : ℚ
  rTop : ℚ
  rWidth : ℚ
  rHeight : ℚ
  clientW : ℚ
  clientH : ℚ
  naturalW : ℚ
  naturalH : ℚ
  wrLeft : ℚ
  wrTop : ℚ
deriving DecidableEq

/-- `r.width || img.clientWidth || img.naturalWidth || 1`
(App.js 2196, 2357). -/
def Surface.effW (sf : Surface) : ℚ :=
  if sf.rWidth ≠ 0 then sf.rWidth
  else if sf.clientW ≠ 0 then sf.clientW
  else if sf.naturalW ≠ 0 then sf.naturalW
  else 1

/-- `r.height || img.clientHeight || img.naturalHeight || 1`. -/
def Surface.effH (sf : Surface) : ℚ :=
  if sf.rHeight ≠ 0 then sf.rHeight
  else if sf.clientH ≠ 0 then sf.clientH
  else if sf.naturalH ≠ 0 then sf.naturalH
  else 1

/-- One placement suggestion returned by the auto-layout / spatial-map
backend: a box in the source raster's pixel space of page `page`,
whose raster size is `pageW × pageH` (JS `page_w`/`page_h`). -/
structure Placement where
  ptype : String
  page : ℤ
  x : ℚ
  y : ℚ
  w : ℚ
  h : ℚ
  pageW : ℚ
  pageH : ℚ
  text : String
  ctype : String
  pts : Option ℚ
  qid : Option String
deriving DecidableEq

/-- The rectangle computed for one placement by `fetchSpatialRects`
(App.js 2350-2364): `(left, top, width, height)` in the page wrap's
coordinate space. -/
def spatialRect (sf : Surface) (p : Placement) : ℚ × ℚ × ℚ × ℚ :=
  let pw := if p.pageW = 0 then 1 else p.pageW
  let ph := if p.pageH = 0 then 1 else p.pageH
  let scaleX := sf.effW / pw
  let scaleY := sf.effH / ph
  let offX := sf.rLeft - sf.wrLeft
  let offY := sf.rTop - sf.wrTop
  (offX + p.x * scaleX, offY + p.y * scaleY, p.w * scaleX, p.h * scaleY)

/-- The in-flight state of one `runAutoLayout` invocation: the actual
collection and stacks as mutated so far, the per-question top-comment
tracker `firstCommentTopByQ` (insertion-ordered, as a JS object), and
the id supply counter. -/
structure ALState where
  boxes : List Box
  history : List (List Box)
  redo : List (List Box)
  firstTop : List (String × ℤ × ℚ × ℚ)
  nextId : ℕ
deriving DecidableEq

/-- `firstCommentTopByQ[qid] = {idx, y, offX}` when the slot is empty
or the new `y` is smaller; a JS object keeps the key's insertion
position on overwrite. -/
def updateFirstTop : List (String × ℤ × ℚ × ℚ) → String → ℤ → ℚ → ℚ →
    List (String × ℤ × ℚ × ℚ)
  | [], q, idx, y, offX => [(q, idx, y, offX)]
  | e :: rest, q, idx, y, offX =>
    if e.1 = q then
      (if y < e.2.2.1 then (q, idx, y, offX) :: rest else e :: rest)
    else e :: updateFirstTop rest q idx y offX

/-- `Math.round(18 * 1.6)`: the score-marker height used by the
auto-layout mapper (App.js 2222-2223). -/
def alMarkerH : ℚ := jround (18 * (1.6 : ℚ))

/-- The combined effect, inside one auto-layout run, of one
`addBox`/`addScoreMarker` call followed by the
`setBoxes(prev => prev.map(b => b.id === id ? {...b, ...} : b))` field
override: `addBox` pushes the stale snapshot `snap` and clears redo
(its own `pushHistory()`), appends the freshly built object `nb`
(whose id is the supply value), and the map rewrites the object with
that id through `g`. -/
def alPlaceBox (snap : List Box) (nb : Box) (g : Box → Box) (a : ALState) : ALState :=
  { a with history := snap :: a.history, redo := [],
           boxes := (a.boxes ++ [nb]).map (fun b => if b.id = nb.id then g b else b),
           nextId := a.nextId + 1 }

/-- One iteration of `placements.forEach` in `runAutoLayout`
(App.js 2188-2230).  `snap` is the (stale) `boxes` closure value that
every `pushHistory()` during this run deep-copies; `surf` resolves a
page index to its rendered surface; non-`text` suggestions are
skipped, as are suggestions whose page has no surface.  A placed
comment pushes `snap` again via `addBox`'s own `pushHistory()`, and a
score-type comment additionally places a score marker the same way. -/
def placeOne (snap : List Box) (surf : ℤ → Option Surface) (current : ℤ)
    (sl st : ℚ) (p : Placement) (a : ALState) : ALState :=
  if p.ptype ≠ "text" then a else
  match surf p.page with
  | none => a
  | some sf =>
    let pw := if p.pageW = 0 then 1 else p.pageW
    let ph := if p.pageH = 0 then 1 else p.pageH
    let scaleX := sf.effW / pw
    let scaleY := sf.effH / ph
    let bx := p.x * scaleX
    let bqy := p.y * scaleY
    let bw := p.w * scaleX
    let offX := sf.rLeft - sf.wrLeft
    let offY := sf.rTop - sf.wrTop
    let x1 := offX + bx + max 12 (bw + 8)
    let y1 := offY + bqy
    let maxX := (if sf.rWidth = 0 then 0 else sf.rWidth) - 20
    let maxY := (if sf.rHeight = 0 then 0 else sf.rHeight) - 20
    let x := max 0 (min x1 maxX)
    let y := max 0 (min y1 maxY)
    -- addBox(String(p.text || ''), { select: false, edit: false }),
    -- then the map overriding page/x/y/w/h
    let b0 := mkAddBox a.nextId current sl st p.text { select := false, edit := false }
    let a2 := alPlaceBox snap b0
      (fun b => { b with page := p.page, x := .num x, y := .num y,
                         w := .num 360, h := .num 100 }) a
    let a3 : ALState := match p.qid with
      | none => a2
      | some q => { a2 with firstTop := updateFirstTop a2.firstTop q p.page y offX }
    if p.ctype = "score" ∧ p.pts.isSome then
      let sqx := max 0 (x - 64)
      let sqy := max 0 (y + 100 - alMarkerH)
      let m0 := mkScoreMarker a3.nextId current sl st (p.pts.getD 0) { select := false }
      alPlaceBox snap m0
        (fun b => { b with page := p.page, x := .num sqx, y := .num sqy,
                           fontSize := .num 18 }) a3
    else a3

/-- One iteration of the per-question score-label placement
(App.js 2233-2247): `qs` is the review's question list as
`(id, awarded, max)`. -/
def labelOne (snap : List Box) (qs : List (String × ℤ × ℤ)) (current : ℤ)
    (sl st : ℚ) (a : ALState) (e : String × ℤ × ℚ × ℚ) : ALState :=
  let awarded := match qs.find? (fun t => t.1 = e.1) with
    | some t => t.2.1
    | none => 0
  let mx := match qs.find? (fun t => t.1 = e.1) with
    | some t => t.2.2
    | none => 0
  let label := toString awarded ++ "/" ++ toString mx
  let y := max 0 (e.2.2.1 - 26)
  let x := max 0 (e.2.2.2 + 20)
  let b0 := mkAddBox a.nextId current sl st label { select := false, edit := false }
  alPlaceBox snap b0
    (fun b => { b with page := e.2.1, x := .num x, y := .num y,
                       w := .num 120, h := .num 24, fontSize := .num 16,
                       fixedHeight := true }) a

/-- `runAutoLayout` after a successful fetch (App.js 2178-2248): an
empty suggestion list returns before any state change; otherwise one
`pushHistory()` precedes the batch, each placed object's `addBox` /
`addScoreMarker` pushes the same stale snapshot again, and finally the
per-question labels are placed.  `n0` seeds the fresh-id supply. -/
def runAutoLayout (surf : ℤ → Option Surface) (current : ℤ) (sl st : ℚ)
    (qs : List (String × ℤ × ℤ)) (ps : List Placement) (n0 : ℕ)
    (s : EditorState) : EditorState :=
  if ps.isEmpty then s else
  let snap := s.boxes
  let a0 : ALState := ⟨s.boxes, snap :: s.history, [], [], n0⟩
  let a1 := ps.foldl (fun a p => placeOne snap surf current sl st p a) a0
  let a2 := a1.firstTop.foldl (labelOne snap qs current sl st) a1
  ⟨a2.boxes, a2.history, a2.redo⟩

/-! ## Concrete fixtures used by witnesses and counterexamples -/

/-- An already-placed comment box (no JS `type` field). -/
def cBoxA : Box :=
  { id := 1, x := .num 40, y := .num 40, w := .num 240, h := .num 100,
    fontSize := .num 14, fontWeight := "bold", text := "a" }

/-- The empty editor state. -/
def stEmpty : EditorState := ⟨[], [], []⟩

/-- A committed freehand stroke on page 0 with sample points
`(0,0), (10,0), (10,10)` and stroke width 3 (the stroke-commit shape of
App.js 1419: no `x`/`y`/`w`/`h` fields). -/
def strokeS : Box :=
  { id := 9, btype := .draw, page := 0,
    points := [⟨0, 0⟩, ⟨10, 0⟩, ⟨10, 10⟩],
    strokeWidth := .num 3, offsetX := .num 0, offsetY := .num 0 }

/-- The requested width of a resize drag, before clamping: right-side
corners/edges grow by `dx`, left-side ones shrink by `dx`. -/
def reqW (c : Corner) (w0 dx : ℚ) : ℚ :=
  if c = .br ∨ c = .tr ∨ c = .r then w0 + dx else w0 - dx

/-- The requested height of a resize drag, before clamping. -/
def reqH (c : Corner) (h0 dy : ℚ) : ℚ :=
  if c = .br ∨ c = .bl then h0 + dy
  else if c = .tr ∨ c = .tl then h0 - dy
  else h0

/-! ## Helper lemmas -/

theorem JsNum.add_num (a b : ℚ) : (num a).add (num b) = num (a + b) := rfl

theorem JsNum.sub_num (a b : ℚ) : (num a).sub (num b) = num (a - b) := rfl

theorem JsNum.mul_num (a b : ℚ) : (num a).mul (num b) = num (a * b) := rfl

theorem JsNum.div_num {b : ℚ} (a : ℚ) (hb : b ≠ 0) :
    (num a).div (num b) = num (a / b) := by
  simp [JsNum.div, hb]

theorem JsNum.maxC_num (c a : ℚ) : (num a).maxC c = num (max c a) := rfl

theorem JsNum.max2_num (a b : ℚ) : (num a).max2 (num b) = num (max a b) := rfl

theorem JsNum.round_num (a : ℚ) : (num a).round = num (jround a) := rfl

theorem JsNum.orQ_num (a d : ℚ) : (num a).orQ d = if a = 0 then d else a := rfl

/-- Erasing never rewrites a surviving object: the post-erase
collection is a sublist of the pre-erase one. -/
theorem eraseStrokeAt_snd_sublist (cache boxes : List Box) (px py : ℚ) :
    ((eraseStrokeAt cache boxes px py).2).Sublist boxes := by
  unfold eraseStrokeAt
  split
  · exact List.Sublist.refl boxes
  · dsimp only
    split
    · exact List.Sublist.refl boxes
    · exact List.filter_sublist boxes

/-! ## Claim theorems -/

/-- C10: invoking undo with an empty undo stack, or redo with an empty
redo stack, is a complete no-op — the object collection and both
stacks are left unchanged. -/
theorem undo_redo_empty_noop (s : EditorState) :
    (s.history = [] → undoStep s = s) ∧ (s.redo = [] → redoStep s = s) := by
  constructor
  · intro h; simp [undoStep, h]
  · intro h; simp [redoStep, h]

theorem undo_redo_empty_noop_witness :
    undoStep ⟨[], [], []⟩ = ⟨[], [], []⟩ ∧ redoStep ⟨[], [], []⟩ = ⟨[], [], []⟩ :=
  ⟨(undo_redo_empty_noop _).1 rfl, (undo_redo_empty_noop _).2 rfl⟩

/-- C2: every single place / move / resize / delete operation pushes
the pre-operation collection, so an immediate undo restores a
collection structurally equal to the pre-operation one, and an
immediate redo after that undo restores the post-operation one. -/
theorem undo_redo_roundtrip (e : EditOp) (s : EditorState) :
    (undoStep (applyEdit e s)).boxes = s.boxes ∧
    (redoStep (undoStep (applyEdit e s))).boxes = (applyEdit e s).boxes := by
  constructor <;> simp [applyEdit, pushHistory, undoStep, redoStep]

/-- C3 counterexample: pasting a non-empty clipboard mutates the
collection but pushes nothing onto the undo stack — starting from an
empty history, the top of the undo stack after the paste is not the
pre-paste collection (the stack is still empty). -/
theorem paste_no_push_cx :
    (pasteKey [1] [cBoxA] [2] stEmpty).history.head? ≠ some stEmpty.boxes ∧
    (pasteKey [1] [cBoxA] [2] stEmpty).boxes ≠ stEmpty.boxes := by
  constructor <;> decide

/-- C3 amended: place, move, resize and delete each push a deep copy
of the pre-mutation collection onto the undo stack and clear the redo
stack before mutating; paste, however, pushes nothing — it appends the
offset clones while leaving both stacks exactly as they were. -/
theorem mutations_push_paste_does_not :
    (∀ (e : EditOp) (s : EditorState),
        (applyEdit e s).history = s.boxes :: s.history ∧ (applyEdit e s).redo = []) ∧
    (∀ (sel : List ℕ) (clip : List Box) (ids : List ℕ) (s : EditorState),
        (pasteKey sel clip ids s).history = s.history ∧
        (pasteKey sel clip ids s).redo = s.redo) := by
  constructor
  · intro e s; exact ⟨rfl, rfl⟩
  · intro sel clip ids s
    unfold pasteKey
    split
    · exact ⟨rfl, rfl⟩
    · split
      · exact ⟨rfl, rfl⟩
      · exact ⟨rfl, rfl⟩

/-- C4: one erase step removes exactly the strokes having at least one
offset-adjusted sample point within the erase radius of the erase
point, removes them whole (the surviving collection is a sublist of
the original — no object is modified), and is a no-op on both the
cache and the collection when no stroke is hit. -/
theorem erase_removes_exactly_hit_strokes (cache boxes : List Box) (px py : ℚ) :
    ((eraseStrokeAt cache boxes px py).2).Sublist boxes ∧
    (∀ b ∈ boxes, (b ∈ (eraseStrokeAt cache boxes px py).2 ↔
        ¬ (b.btype = .draw ∧ ∃ st ∈ cache, st.id = b.id ∧ strokeHitsAt px py st = true))) ∧
    ((∀ st ∈ cache, strokeHitsAt px py st = false) →
        eraseStrokeAt cache boxes px py = (cache, boxes)) := by
  refine ⟨eraseStrokeAt_snd_sublist cache boxes px py, ?_, ?_⟩
  · intro b hb
    unfold eraseStrokeAt
    split
    · next hce =>
      have hc : cache = [] := List.isEmpty_iff.mp hce
      subst hc
      simp [hb]
    · dsimp only
      split
      · next hre =>
        have hfil : ∀ st ∈ cache, ¬ strokeHitsAt px py st = true :=
          List.filter_eq_nil_iff.mp (List.isEmpty_iff.mp hre)
        simp only [hb, true_iff]
        rintro ⟨-, st, hst, -, hhit⟩
        exact hfil st hst hhit
      · simp only [List.mem_filter, hb, true_and, decide_eq_true_eq,
          Bool.not_eq_true', decide_eq_false_iff_not, List.any_eq_true]
        constructor
        · intro hp ⟨hdraw, st, hst, hid, hhit⟩
          exact hp ⟨hdraw, st, ⟨hst, hhit⟩, by simp [hid]⟩
        · rintro hp ⟨hdraw, st, ⟨hst, hhit⟩, hid⟩
          exact hp ⟨hdraw, st, hst, by simpa using hid, hhit⟩
  · intro hno
    unfold eraseStrokeAt
    split
    · rfl
    · dsimp only
      split
      · rfl
      · next hre =>
        exact absurd (List.isEmpty_iff.mpr (List.filter_eq_nil_iff.mpr
          fun st hst => by simp [hno st hst])) hre

theorem erase_removes_exactly_hit_strokes_witness :
    strokeS ∈ (eraseStrokeAt [strokeS] [strokeS] 10 0).2 ↔
      ¬ (strokeS.btype = .draw ∧
          ∃ st ∈ [strokeS], st.id = strokeS.id ∧ strokeHitsAt 10 0 st = true) :=
  (erase_removes_exactly_hit_strokes [strokeS] [strokeS] 10 0).2.1 strokeS (by decide)

/-- A plain text comment box used by the resize counterexamples. -/
def tBox5 : Box :=
  { id := 2, x := .num 0, y := .num 0, w := .num 100, h := .num 50,
    fontSize := .num 16, fontWeight := "bold", text := "t" }

/-- A straight-line object as created by `addLineBox` (App.js 1333),
moved to `x = 5`. -/
def lineB : Box :=
  { id := 4, btype := .line, x := .num 5, y := .num 0, w := .num 240, h := .num 3 }

/-- An arrow object as created by `addArrow` (App.js 1360). -/
def arrowB : Box :=
  { id := 6, btype := .arrow, x := .num 100, y := .num 100,
    ex := .num 240, ey := .num 100, strokeWidth := .num 3 }

/-- C7: a text object placed with the default 240×100 box at (40,40)
(page 0, no scroll), left-edge-dragged 30px leftward, ends at
`x = 10`, `w = 270` with height and font size untouched — whatever the
vertical pointer delta and page rectangle were. -/
theorem text_left_edge_resize (dy : ℚ) (r : SurfRect) (ptx pty : ℚ) :
    resizeStep (mkAddBox 3 0 0 0 "+5 correct" {}) (mkAddBox 3 0 0 0 "+5 correct" {})
        .l (-30) dy r ptx pty
      = { mkAddBox 3 0 0 0 "+5 correct" {} with x := .num 10, w := .num 270 } := by
  with_unfolding_all rfl

/-- C5 counterexample: a corner drag on a *text* box does change its
font size (the code excludes only `image` kinds from font scaling):
dragging the bottom-right corner of a 100×50 text box by `(100, 0)`
scales the font from 16 to 32. -/
theorem text_corner_resize_font_cx :
    (tBox5.btype = .undef ∨ tBox5.btype = .text) ∧
    (resizeStep tBox5 tBox5 .br 100 0 ⟨0, 0, 800, 600⟩ 0 0).fontSize ≠ tBox5.fontSize := by
  constructor
  · exact Or.inl rfl
  · with_unfolding_all decide

/-- C5 amended: for every corner drag on a generic box
(text/score/image/target), both dimensions are scaled by the larger of
the two requested scale factors (computed from the min-clamped
requested sizes, with the 80/40 minimums re-applied), and the font
size is scaled proportionally for every kind *except* `image` — text
boxes included; only `image` objects keep their font size. -/
theorem corner_resize_uniform_scale (sb cur : Box) (c : Corner) (dx dy : ℚ)
    (r : SurfRect) (ptx pty : ℚ) (w0 h0 f0 sc : ℚ)
    (hk : sb.btype = .undef ∨ sb.btype = .text ∨ sb.btype = .score ∨
          sb.btype = .image ∨ sb.btype = .target)
    (hc : c = .tl ∨ c = .tr ∨ c = .bl ∨ c = .br)
    (hw : sb.w = .num w0) (hh : sb.h = .num h0) (hf : sb.fontSize = .num f0)
    (hs : sc = max (max 80 (reqW c w0 dx) / max 1 w0) (max 40 (reqH c h0 dy) / max 1 h0)) :
    (resizeStep sb cur c dx dy r ptx pty).w = .num (max 80 (max 1 w0 * sc)) ∧
    (resizeStep sb cur c dx dy r ptx pty).h = .num (max 40 (max 1 h0 * sc)) ∧
    (sb.btype ≠ .image →
      (resizeStep sb cur c dx dy r ptx pty).fontSize =
        .num (max 8 (jround ((if f0 = 0 then 16 else f0) * sc)))) ∧
    (sb.btype = .image →
      (resizeStep sb cur c dx dy r ptx pty).fontSize = cur.fontSize) := by
  have hw1 : max 1 w0 ≠ 0 := ne_of_gt (lt_of_lt_of_le one_pos (le_max_left _ _))
  have hh1 : max 1 h0 ≠ 0 := ne_of_gt (lt_of_lt_of_le one_pos (le_max_left _ _))
  subst hs
  rcases hk with hk | hk | hk | hk | hk <;> rcases hc with hc | hc | hc | hc <;> subst hc <;>
    simp [resizeStep, hk, hw, hh, hf, reqW, reqH, JsNum.add_num, JsNum.sub_num,
      JsNum.mul_num, JsNum.maxC_num, JsNum.max2_num, JsNum.round_num, JsNum.orQ_num,
      JsNum.div_num _ hw1, JsNum.div_num _ hh1]

theorem corner_resize_uniform_scale_witness :
    (resizeStep tBox5 tBox5 .br 100 0 ⟨0, 0, 800, 600⟩ 0 0).w =
      .num (max 80 (max 1 100 * 2)) ∧
    (resizeStep tBox5 tBox5 .br 100 0 ⟨0, 0, 800, 600⟩ 0 0).fontSize =
      .num (max 8 (jround ((if (16 : ℚ) = 0 then 16 else 16) * 2))) := by
  have h := corner_resize_uniform_scale tBox5 tBox5 .br 100 0 ⟨0, 0, 800, 600⟩ 0 0
    100 50 16 2 (Or.inl rfl) (Or.inr (Or.inr (Or.inr rfl))) rfl rfl rfl
    (by with_unfolding_all decide)
  exact ⟨h.1, h.2.2.1 (by decide)⟩

/-- C6 counterexample: a left-edge drag on a line whose requested new
`x` is negative gets clamped to `0`, so the right edge does *not* stay
fixed: the line at `x = 5`, `w = 240` dragged by `dx = -10` ends with
`x = 0`, `w = 250`, a right edge of `250 ≠ 245`. -/
theorem line_left_resize_cx :
    (resizeStep lineB lineB .l (-10) 0 ⟨0, 0, 800, 600⟩ 0 0).x = .num 0 ∧
    (resizeStep lineB lineB .l (-10) 0 ⟨0, 0, 800, 600⟩ 0 0).w = .num 250 ∧
    ((resizeStep lineB lineB .l (-10) 0 ⟨0, 0, 800, 600⟩ 0 0).x).add
        ((resizeStep lineB lineB .l (-10) 0 ⟨0, 0, 800, 600⟩ 0 0).w)
      ≠ lineB.x.add lineB.w := by
  refine ⟨by with_unfolding_all decide, by with_unfolding_all decide,
    by with_unfolding_all decide⟩

/-- C6 amended: a line's height (thickness, ≥ 1) is invariant under
every resize drag; a left-edge drag moves the x origin to `x + dx` and
keeps the right edge fixed *provided* the new x stays ≥ 0 and the
requested width stays ≥ 10 (otherwise the 0/10 clamps shift the
edge); an arrow's resize changes only the endpoint coordinates
`x`, `y`, `ex`, `ey`. -/
theorem line_arrow_resize :
    (∀ (sb cur : Box) (c : Corner) (dx dy : ℚ) (r : SurfRect) (ptx pty : ℚ) (h0 : ℚ),
        sb.btype = .line → sb.h = .num h0 → 1 ≤ h0 →
        (resizeStep sb cur c dx dy r ptx pty).h = .num h0) ∧
    (∀ (sb cur : Box) (dx dy : ℚ) (r : SurfRect) (ptx pty : ℚ) (x0 w0 : ℚ),
        sb.btype = .line → sb.x = .num x0 → sb.w = .num w0 →
        0 ≤ x0 + dx → 10 ≤ w0 - dx →
        (resizeStep sb cur .l dx dy r ptx pty).x = .num (x0 + dx) ∧
        ((resizeStep sb cur .l dx dy r ptx pty).x).add
            ((resizeStep sb cur .l dx dy r ptx pty).w) = .num (x0 + w0)) ∧
    (∀ (sb cur : Box) (c : Corner) (dx dy : ℚ) (r : SurfRect) (ptx pty : ℚ),
        sb.btype = .arrow →
        ∃ nx ny nex ney, resizeStep sb cur c dx dy r ptx pty =
          { cur with x := nx, y := ny, ex := nex, ey := ney }) := by
  refine ⟨?_, ?_, ?_⟩
  · intro sb cur c dx dy r ptx pty h0 hL hh h1
    have hne : h0 ≠ 0 := ne_of_gt (lt_of_lt_of_le one_pos h1)
    simp [resizeStep, hL, hh, JsNum.orQ_num, hne, max_eq_right h1]
  · intro sb cur dx dy r ptx pty x0 w0 hL hx hw hxe hwe
    constructor <;>
      simp [resizeStep, hL, hx, hw, JsNum.add_num, JsNum.sub_num, JsNum.maxC_num,
        max_eq_right hxe, max_eq_right hwe]
  · intro sb cur c dx dy r ptx pty hA
    cases c
    · exact ⟨.num (max 0 (min (ptx - r.left) r.width)),
        .num (max 0 (min (pty - r.top) r.height)), cur.ex, cur.ey, by simp [resizeStep, hA]⟩
    · exact ⟨cur.x, cur.y, cur.ex, cur.ey, by simp [resizeStep, hA]⟩
    · exact ⟨cur.x, cur.y, cur.ex, cur.ey, by simp [resizeStep, hA]⟩
    · exact ⟨cur.x, cur.y, .num (max 0 (min (ptx - r.left) r.width)),
        .num (max 0 (min (pty - r.top) r.height)), by simp [resizeStep, hA]⟩
    · exact ⟨.num (max 0 (min (ptx - r.left) r.width)),
        .num (max 0 (min (pty - r.top) r.height)), cur.ex, cur.ey, by simp [resizeStep, hA]⟩
    · exact ⟨cur.x, cur.y, .num (max 0 (min (ptx - r.left) r.width)),
        .num (max 0 (min (pty - r.top) r.height)), by simp [resizeStep, hA]⟩

/-- A rendered surface whose image rectangle sits at `(10, 20)` inside
a wrap whose origin is `(2, 5)`. -/
def sfA : Surface := ⟨10, 20, 800, 600, 800, 600, 800, 600, 2, 5⟩

/-- A placement covering its entire 1654×2339 source raster. -/
def pFull : Placement := ⟨"text", 0, 0, 0, 1654, 2339, 1654, 2339, "", "", none, none⟩

/-- C8: projecting a suggestion box that covers the whole source
raster yields exactly the full on-screen surface rectangle
`(offX, offY, surfaceWidth, surfaceHeight)`, independent of the raster
dimensions. -/
theorem project_full_box (sf : Surface) (p : Placement)
    (hpw : 0 < p.pageW) (hph : 0 < p.pageH)
    (hrw : 0 < sf.rWidth) (hrh : 0 < sf.rHeight)
    (hx : p.x = 0) (hy : p.y = 0) (hw : p.w = p.pageW) (hh : p.h = p.pageH) :
    spatialRect sf p =
      (sf.rLeft - sf.wrLeft, sf.rTop - sf.wrTop, sf.rWidth, sf.rHeight) := by
  unfold spatialRect Surface.effW Surface.effH
  rw [if_neg (by simpa using hpw.ne'), if_neg (by simpa using hph.ne'),
    if_pos hrw.ne', if_pos hrh.ne']
  rw [hx, hy, hw, hh]
  have h1 : p.pageW ≠ 0 := hpw.ne'
  have h2 : p.pageH ≠ 0 := hph.ne'
  field_simp

theorem project_full_box_witness :
    spatialRect sfA pFull =
      (sfA.rLeft - sfA.wrLeft, sfA.rTop - sfA.wrTop, sfA.rWidth, sfA.rHeight) :=
  project_full_box sfA pFull (by norm_num [pFull]) (by norm_num [pFull])
    (by norm_num [sfA]) (by norm_num [sfA]) rfl rfl rfl rfl

/-- C9 counterexample: an arrow-key nudge on a selected committed
stroke rewrites a field *other than* the offsets: the stroke has no
`y` field, so `b.y + step` is `NaN` and the nudge stores `y = NaN`.
Its points and offsets are untouched, but the claim that *only* the
offset translation fields may change is false. -/
theorem draw_nudge_changes_y_cx :
    (nudgeKey .down false [9] ⟨[strokeS], [], []⟩).boxes = [{ strokeS with y := JsNum.nan }] ∧
    ({ strokeS with y := JsNum.nan } : Box) ≠ strokeS ∧
    ({ strokeS with y := JsNum.nan } : Box).points = strokeS.points ∧
    ({ strokeS with y := JsNum.nan } : Box).offsetX = strokeS.offsetX ∧
    ({ strokeS with y := JsNum.nan } : Box).offsetY = strokeS.offsetY := by
  exact ⟨by decide, by decide, rfl, rfl, rfl⟩

/-- C9 amended: a committed stroke's `points` are never rewritten and
no operation mutates its offsets except as the stroke's own
translation — the move gesture skips `draw` objects entirely, resize
and nudge never touch `points`/`offsetX`/`offsetY` of any object,
paste leaves every existing object in place and clones carry the
identical points, and erase only ever deletes whole strokes (the
surviving collection is a sublist).  The nudge may, however, write the
stroke's unused `x`/`y` fields (see the counterexample). -/
theorem draw_shape_immutable :
    (∀ (st0 : Box) (dx dy : ℚ) (nb : Box), nb.btype = .draw → moveUpd st0 dx dy nb = nb) ∧
    (∀ (sb cur : Box) (c : Corner) (dx dy : ℚ) (r : SurfRect) (ptx pty : ℚ),
        (resizeStep sb cur c dx dy r ptx pty).points = cur.points ∧
        (resizeStep sb cur c dx dy r ptx pty).offsetX = cur.offsetX ∧
        (resizeStep sb cur c dx dy r ptx pty).offsetY = cur.offsetY) ∧
    (∀ (k : ArrowKey) (stp : ℚ) (b : Box),
        (nudgeOne k stp b).points = b.points ∧
        (nudgeOne k stp b).offsetX = b.offsetX ∧
        (nudgeOne k stp b).offsetY = b.offsetY) ∧
    (∀ (off : ℚ) (nid : ℕ) (b : Box), (cloneBox off nid b).points = b.points) ∧
    (∀ (sel : List ℕ) (clip : List Box) (ids : List ℕ) (s : EditorState),
        ∃ tl0, (pasteKey sel clip ids s).boxes = s.boxes ++ tl0) ∧
    (∀ (cache bxs : List Box) (px py : ℚ),
        ((eraseStrokeAt cache bxs px py).2).Sublist bxs) := by
  refine ⟨?_, ?_, ?_, ?_, ?_, ?_⟩
  · intro st0 dx dy nb h
    simp [moveUpd, h]
  · intro sb cur c dx dy r ptx pty
    unfold resizeStep
    dsimp only
    split_ifs <;> exact ⟨rfl, rfl, rfl⟩
  · intro k stp b
    cases k <;> exact ⟨rfl, rfl, rfl⟩
  · intro off nid b
    cases h : b.btype <;> simp [cloneBox, h]
  · intro sel clip ids s
    unfold pasteKey
    split
    · exact ⟨[], by simp⟩
    · split
      · exact ⟨[], by simp⟩
      · exact ⟨_, rfl⟩
  · exact eraseStrokeAt_snd_sublist

theorem draw_shape_immutable_witness :
    moveUpd strokeS 7 9 strokeS = strokeS :=
  draw_shape_immutable.1 strokeS 7 9 strokeS rfl

theorem line_arrow_resize_witness :
    (resizeStep lineB lineB .r 25 0 ⟨0, 0, 800, 600⟩ 0 0).h = .num 3 ∧
    (resizeStep lineB lineB .l (-2) 0 ⟨0, 0, 800, 600⟩ 0 0).x = .num (5 + -2) ∧
    (∃ nx ny nex ney, resizeStep arrowB arrowB .r 0 0 ⟨0, 0, 800, 600⟩ 300 200 =
        { arrowB with x := nx, y := ny, ex := nex, ey := ney }) :=
  ⟨line_arrow_resize.1 lineB lineB .r 25 0 ⟨0, 0, 800, 600⟩ 0 0 3 rfl rfl (by norm_num),
   (line_arrow_resize.2.1 lineB lineB (-2) 0 ⟨0, 0, 800, 600⟩ 0 0 5 240 rfl rfl rfl
      (by norm_num) (by norm_num)).1,
   line_arrow_resize.2.2 arrowB arrowB .r 0 0 ⟨0, 0, 800, 600⟩ 300 200 rfl⟩

/-! ## The auto-layout batch (C1) -/

/-- The invariant maintained across one auto-layout run: every
snapshot pushed so far is the (stale) pre-run collection `snap`, the
pre-run objects are still an unchanged prefix of the collection, and
the id supply has not dropped below its seed. -/
def ALinv (snap : List Box) (h0 : List (List Box)) (n0 : ℕ) (a : ALState) : Prop :=
  (∃ k, a.history = List.replicate (k + 1) snap ++ h0) ∧
  (∃ t, a.boxes = snap ++ t) ∧ n0 ≤ a.nextId

theorem map_noupdate (i : ℕ) (g : Box → Box) :
    ∀ (pre : List Box), (∀ b ∈ pre, b.id ≠ i) →
      pre.map (fun b => if b.id = i then g b else b) = pre
  | [], _ => rfl
  | a :: as, hpre => by
    rw [List.map_cons, if_neg (hpre a (List.mem_cons_self a as)),
      map_noupdate i g as (fun b hb => hpre b (List.mem_cons_of_mem a hb))]

theorem map_update_prefix (pre t : List Box) (i : ℕ) (g : Box → Box)
    (hpre : ∀ b ∈ pre, b.id ≠ i) :
    (pre ++ t).map (fun b => if b.id = i then g b else b) =
      pre ++ t.map (fun b => if b.id = i then g b else b) := by
  rw [List.map_append, map_noupdate i g pre hpre]

theorem alPlaceBox_inv {snap : List Box} {h0 : List (List Box)} {n0 : ℕ}
    {nb : Box} {g : Box → Box} {a : ALState}
    (hFresh : ∀ b ∈ snap, b.id < n0) (hid : n0 ≤ nb.id)
    (h : ALinv snap h0 n0 a) : ALinv snap h0 n0 (alPlaceBox snap nb g a) := by
  obtain ⟨⟨k, hh⟩, ⟨t, hb⟩, hn⟩ := h
  refine ⟨⟨k + 1, ?_⟩, ⟨(t ++ [nb]).map (fun b => if b.id = nb.id then g b else b), ?_⟩, ?_⟩
  · simp [alPlaceBox, hh, List.replicate_succ]
  · have hpre : ∀ b ∈ snap, b.id ≠ nb.id := fun b hbm =>
      Nat.ne_of_lt (lt_of_lt_of_le (hFresh b hbm) hid)
    show (a.boxes ++ [nb]).map _ = _
    rw [hb, List.append_assoc]
    exact map_update_prefix snap (t ++ [nb]) nb.id g hpre
  · exact hn.trans (Nat.le_succ _)

theorem placeOne_inv {snap : List Box} {h0 : List (List Box)} {n0 : ℕ}
    (surf : ℤ → Option Surface) (current : ℤ) (sl st : ℚ) (p : Placement)
    {a : ALState} (hFresh : ∀ b ∈ snap, b.id < n0)
    (h : ALinv snap h0 n0 a) :
    ALinv snap h0 n0 (placeOne snap surf current sl st p a) := by
  obtain ⟨hh, hb, hn⟩ := h
  unfold placeOne
  split
  · exact ⟨hh, hb, hn⟩
  · split
    · exact ⟨hh, hb, hn⟩
    · dsimp only
      rcases hq : p.qid with _ | q <;> dsimp only <;> split
      · exact alPlaceBox_inv hFresh (hn.trans (Nat.le_succ _))
          (alPlaceBox_inv hFresh hn ⟨hh, hb, hn⟩)
      · exact alPlaceBox_inv hFresh hn ⟨hh, hb, hn⟩
      · exact alPlaceBox_inv hFresh (hn.trans (Nat.le_succ _))
          (alPlaceBox_inv hFresh hn ⟨hh, hb, hn⟩)
      · exact alPlaceBox_inv hFresh hn ⟨hh, hb, hn⟩

theorem labelOne_inv {snap : List Box} {h0 : List (List Box)} {n0 : ℕ}
    (qs : List (String × ℤ × ℤ)) (current : ℤ) (sl st : ℚ)
    (e : String × ℤ × ℚ × ℚ) {a : ALState}
    (hFresh : ∀ b ∈ snap, b.id < n0) (h : ALinv snap h0 n0 a) :
    ALinv snap h0 n0 (labelOne snap qs current sl st a e) := by
  obtain ⟨hh, hb, hn⟩ := h
  unfold labelOne
  exact alPlaceBox_inv hFresh hn ⟨hh, hb, hn⟩

theorem foldl_placeOne_inv {snap : List Box} {h0 : List (List Box)} {n0 : ℕ}
    (surf : ℤ → Option Surface) (current : ℤ) (sl st : ℚ)
    (hFresh : ∀ b ∈ snap, b.id < n0) :
    ∀ (ps : List Placement) (a : ALState), ALinv snap h0 n0 a →
      ALinv snap h0 n0 (ps.foldl (fun a p => placeOne snap surf current sl st p a) a)
  | [], _, h => h
  | p :: ps, _, h =>
    foldl_placeOne_inv surf current sl st hFresh ps _
      (placeOne_inv surf current sl st p hFresh h)

theorem foldl_labelOne_inv {snap : List Box} {h0 : List (List Box)} {n0 : ℕ}
    (qs : List (String × ℤ × ℤ)) (current : ℤ) (sl st : ℚ)
    (hFresh : ∀ b ∈ snap, b.id < n0) :
    ∀ (l : List (String × ℤ × ℚ × ℚ)) (a : ALState), ALinv snap h0 n0 a →
      ALinv snap h0 n0 (l.foldl (labelOne snap qs current sl st) a)
  | [], _, h => h
  | e :: l, _, h =>
    foldl_labelOne_inv qs current sl st hFresh l _
      (labelOne_inv qs current sl st e hFresh h)

theorem placeOne_clean (snap : List Box) (surf : ℤ → Option Surface)
    (current : ℤ) (sl st : ℚ) (p : Placement) (a : ALState)
    (hp : p.ptype = "text") (hq : p.qid = none)
    (hs : ¬ (p.ctype = "score" ∧ p.pts.isSome)) :
    (placeOne snap surf current sl st p a).firstTop = a.firstTop ∧
    (placeOne snap surf current sl st p a).boxes.length =
      a.boxes.length + (if (surf p.page).isSome = true then 1 else 0) ∧
    (placeOne snap surf current sl st p a).history.length =
      a.history.length + (if (surf p.page).isSome = true then 1 else 0) := by
  unfold placeOne
  rw [if_neg (by simp [hp])]
  cases hsurf : surf p.page with
  | none => simp
  | some sf =>
    dsimp only
    rw [hq]
    dsimp only
    rw [if_neg hs]
    simp [alPlaceBox]

theorem foldl_placeOne_clean (snap : List Box) (surf : ℤ → Option Surface)
    (current : ℤ) (sl st : ℚ) :
    ∀ (ps : List Placement) (a : ALState),
      (∀ p ∈ ps, p.ptype = "text" ∧ p.qid = none ∧ ¬ (p.ctype = "score" ∧ p.pts.isSome)) →
      (ps.foldl (fun a p => placeOne snap surf current sl st p a) a).firstTop = a.firstTop ∧
      (ps.foldl (fun a p => placeOne snap surf current sl st p a) a).boxes.length =
        a.boxes.length + ps.countP (fun p => (surf p.page).isSome) ∧
      (ps.foldl (fun a p => placeOne snap surf current sl st p a) a).history.length =
        a.history.length + ps.countP (fun p => (surf p.page).isSome)
  | [], a, _ => ⟨rfl, by simp, by simp⟩
  | p :: ps, a, hclean => by
    obtain ⟨hp, hq, hs⟩ := hclean p (List.mem_cons_self p ps)
    have h1 := placeOne_clean snap surf current sl st p a hp hq hs
    have ih := foldl_placeOne_clean snap surf current sl st ps
      (placeOne snap surf current sl st p a)
      (fun q hq2 => hclean q (List.mem_cons_of_mem p hq2))
    refine ⟨?_, ?_, ?_⟩
    · rw [List.foldl_cons, ih.1, h1.1]
    · rw [List.foldl_cons, ih.2.1, h1.2.1, List.countP_cons]
      split_ifs <;> omega
    · rw [List.foldl_cons, ih.2.2, h1.2.2, List.countP_cons]
      split_ifs <;> omega

/-- C1: the auto-layout batch.  The run appends the placed objects
after the untouched pre-run collection; every snapshot it pushes — one
up-front `pushHistory()` plus one per placed object, through the stale
`boxes` closure — is the *pre-run* collection, so a single undo still
restores the pre-run collection, removing every placed object; and for
a suggestion list of plain text suggestions (no qid, not score-typed),
exactly the page-resolvable suggestions are placed while the
unresolvable ones are silently skipped.  The undo stack grows by
1 + N entries, not 1 (see the counterexample). -/
theorem autolayout_batch (surf : ℤ → Option Surface) (current : ℤ) (sl st : ℚ)
    (qs : List (String × ℤ × ℤ)) (ps : List Placement) (n0 : ℕ) (s : EditorState)
    (hps : ps ≠ []) (hFresh : ∀ b ∈ s.boxes, b.id < n0) :
    (∃ k t, (runAutoLayout surf current sl st qs ps n0 s).history =
        List.replicate (k + 1) s.boxes ++ s.history ∧
        (runAutoLayout surf current sl st qs ps n0 s).boxes = s.boxes ++ t) ∧
    (undoStep (runAutoLayout surf current sl st qs ps n0 s)).boxes = s.boxes ∧
    ((∀ p ∈ ps, p.ptype = "text" ∧ p.qid = none ∧ ¬ (p.ctype = "score" ∧ p.pts.isSome)) →
        (runAutoLayout surf current sl st qs ps n0 s).boxes.length =
          s.boxes.length + ps.countP (fun p => (surf p.page).isSome) ∧
        (runAutoLayout surf current sl st qs ps n0 s).history.length =
          s.history.length + 1 + ps.countP (fun p => (surf p.page).isSome)) := by
  have hne : ¬ ps.isEmpty = true := by simp [List.isEmpty_iff, hps]
  have base : ALinv s.boxes s.history n0 ⟨s.boxes, s.boxes :: s.history, [], [], n0⟩ :=
    ⟨⟨0, by simp⟩, ⟨[], by simp⟩, le_refl n0⟩
  have hinv1 := foldl_placeOne_inv surf current sl st hFresh ps _ base
  have hinv2 := foldl_labelOne_inv qs current sl st hFresh
    ((ps.foldl (fun a p => placeOne s.boxes surf current sl st p a)
        ⟨s.boxes, s.boxes :: s.history, [], [], n0⟩).firstTop) _ hinv1
  obtain ⟨⟨k, hh⟩, ⟨t, hb⟩, -⟩ := hinv2
  unfold runAutoLayout
  rw [if_neg hne]
  dsimp only
  refine ⟨⟨k, t, hh, hb⟩, ?_, ?_⟩
  · show (undoStep ⟨_, _, _⟩).boxes = s.boxes
    rw [undoStep]
    dsimp only
    rw [hh, List.replicate_succ]
    rfl
  · intro hclean
    have hc := foldl_placeOne_clean s.boxes surf current sl st ps
      ⟨s.boxes, s.boxes :: s.history, [], [], n0⟩ hclean
    rw [hc.1]
    dsimp only [List.foldl_nil]
    refine ⟨?_, ?_⟩
    · rw [hc.2.1]
    · rw [hc.2.2]
      simp [Nat.add_assoc, Nat.add_comm 1]

/-- The pre-run state, surfaces and suggestions of the C1 scenario:
page 0 resolves to a surface, page 1 does not. -/
def surfA : ℤ → Option Surface := fun i => if i = 0 then some sfA else none

/-- A resolvable plain text suggestion on page 0. -/
def pRes : Placement := ⟨"text", 0, 100, 50, 200, 40, 800, 600, "c1", "comment", none, none⟩

/-- A suggestion on page 1, which has no rendered surface. -/
def pUnres : Placement := ⟨"text", 1, 100, 50, 200, 40, 800, 600, "c2", "comment", none, none⟩

/-- C1 counterexample: running auto-layout on one resolvable and one
unresolvable text suggestion places exactly one object but pushes
*two* identical snapshots (the up-front `pushHistory()` plus the one
inside `addBox`), so the batch is not recorded as one history-snapshot
event: the undo stack grows by 2, not 1. -/
theorem autolayout_not_one_snapshot_cx :
    (runAutoLayout surfA 0 0 0 [] [pRes, pUnres] 100 stEmpty).boxes.length = 1 ∧
    (runAutoLayout surfA 0 0 0 [] [pRes, pUnres] 100 stEmpty).history.length ≠
      stEmpty.history.length + 1 := by
  have hc := foldl_placeOne_clean stEmpty.boxes surfA 0 0 0 [pRes, pUnres]
    ⟨stEmpty.boxes, stEmpty.boxes :: stEmpty.history, [], [], 100⟩ (by decide)
  have hcount : [pRes, pUnres].countP (fun p => (surfA p.page).isSome) = 1 := by decide
  unfold runAutoLayout
  rw [if_neg (by decide)]
  dsimp only
  rw [hc.1]
  dsimp only [List.foldl_nil]
  rw [hcount] at hc
  exact ⟨hc.2.1, by rw [hc.2.2]; decide⟩

theorem autolayout_batch_witness :
    (undoStep (runAutoLayout surfA 0 0 0 [] [pRes, pUnres] 100 stEmpty)).boxes =
      stEmpty.boxes ∧
    (runAutoLayout surfA 0 0 0 [] [pRes, pUnres] 100 stEmpty).boxes.length =
      stEmpty.boxes.length + [pRes, pUnres].countP (fun p => (surfA p.page).isSome) := by
  have h := autolayout_batch surfA 0 0 0 [] [pRes, pUnres] 100 stEmpty
    (by decide) (by decide)
  exact ⟨h.2.1, (h.2.2 (by decide)).1⟩

end Kotonoha
